import Mathlib

/-!
Shallow embedding of the taskcluster-github event-handling pipeline
(`src/handlers.js`): the job handler, the per-task status handler and the
task-group status handler, together with the fixed lookup tables and the
comment builders they use.  External collaborators (GitHub client, queue,
record stores, the `intree` compiler and the `pr-allowed` predicate) are
modelled as oracles supplying the results the code branches on; every
branch below mirrors a branch of the JavaScript source.
-/

namespace TCGithub

/-- Models the `code` property of a JavaScript error: the source compares it
both against the number `404` (`e.code === 404`, handlers.js:317) and against
the string `'EntityAlreadyExists'` (handlers.js:461,481). -/
inductive JSCode where
  | num (n : Nat)
  | str (s : String)
  | undef
deriving DecidableEq

/-- A JavaScript error value, carrying only the properties the handlers
inspect: `name` (handlers.js:338,396), `code` (317, 461, 481), `message` and
`body.error` (handlers.js:144). -/
structure JSError where
  errName : String := ""
  code : JSCode := JSCode.undef
  message : String := ""
  body : Option String := Option.none
deriving DecidableEq

/-- One row of the Builds azure table (handlers.js:469-479). -/
structure BuildRecord where
  organization : String
  repository : String
  sha : String
  taskGroupId : String
  state : String
  created : String
  updated : String
  installationId : Nat
  eventType : String
  eventId : String
deriving DecidableEq

/-- One row of the CheckRuns azure table (handlers.js:455-459). -/
structure CheckRecord where
  taskGroupId : String
  taskId : String
  checkSuiteId : String
  checkRunId : String
deriving DecidableEq

/-- The task definition inside a compiled graph entry; the handler only
reads its `taskGroupId` (handlers.js:422). -/
structure TaskDef where
  taskGroupId : String
deriving DecidableEq

/-- One entry of `graphConfig.tasks` (handlers.js:437). -/
structure GraphTask where
  taskId : String
  task : TaskDef
deriving DecidableEq

/-- The result of the `intree` compiler (handlers.js:352-360). -/
structure GraphConfig where
  scopes : List String
  tasks : List GraphTask
deriving DecidableEq

/-- Where a comment lands: `issues.createComment` with a PR number
(handlers.js:163) or `repos.createCommitComment` on a sha (handlers.js:172). -/
inductive CommentTarget where
  | issue (number : Nat)
  | commit (sha : String)
deriving DecidableEq

/-- One comment posted to GitHub. -/
structure Comment where
  owner : String
  repo : String
  target : CommentTarget
  body : String
deriving DecidableEq

/-- The `groupState` object of the job handler: `{status: 'queued'}` on the
success path (handlers.js:344-346), `{status: 'completed', conclusion:
'failure', completed_at: …}` when task creation failed (handlers.js:427-431). -/
structure GroupState where
  status : String
  conclusion : Option String := Option.none
  completed_at : Option String := Option.none
deriving DecidableEq

/-- The argument object of `instGithub.checks.create` (handlers.js:438-453),
with the spread of `groupState` flattened into the last three fields. -/
structure CheckRunCall where
  owner : String
  repo : String
  checkName : String
  head_sha : String
  outputTitle : String
  outputSummary : String
  details_url : String
  status : String
  conclusion : Option String
  completed_at : Option String
deriving DecidableEq

/-- The argument object of `instGithub.checks.update` (handlers.js:258-265). -/
structure UpdateCall where
  owner : String
  repo : String
  check_run_id : String
  status : String
  conclusion : Option String
  completed_at : String
deriving DecidableEq

/-! ### JavaScript string operations, modelled over the character list -/

/-- `a.isPrefixOf b` on character lists, by structural recursion. -/
def listIsPrefix : List Char → List Char → Bool
  | [], _ => true
  | _ :: _, [] => false
  | a :: as, b :: bs => a == b && listIsPrefix as bs

/-- JavaScript `s.startsWith(p)` (handlers.js:371). -/
def strStartsWith (s p : String) : Bool := listIsPrefix p.data s.data

/-- lodash `_.endsWith(s, p)` (handlers.js:321). -/
def strEndsWith (s p : String) : Bool := listIsPrefix p.data.reverse s.data.reverse

/-- JavaScript `s.replace(/%/g, '.')` (handlers.js:287-288): every `%`
character becomes `.`. -/
def dotDecode (s : String) : String :=
  String.mk (s.data.map fun c => if c == '%' then '.' else c)

/-- JavaScript `s.split('.')[0]` (handlers.js:442): the segment before the
first dot, or the whole string when there is none. -/
def splitHeadDot (s : String) : String :=
  String.mk (s.data.takeWhile fun c => c != '.')

/-- lodash `_.take(s, n)` on a string, rejoined (handlers.js:327). -/
def strTake (s : String) (n : Nat) : String := String.mk (s.data.take n)

/-- JavaScript `Array.prototype.join(sep)`. -/
def joinWith (sep : String) : List String → String
  | [] => ""
  | [x] => x
  | x :: y :: xs => x ++ sep ++ joinWith sep (y :: xs)

/-- JavaScript truthiness of an optional number (`if (pullNumber)`,
handlers.js:161: `0` and `undefined` are falsy). -/
def jsTruthyNat : Option Nat → Bool
  | some n => n != 0
  | none => false

/-! ### Fixed lookup tables and constants -/

/-- handlers.js:9. -/
def INSPECTOR_URL : String := "https://tools.taskcluster.net/task-group-inspector/#/"

/-- The status/conclusion → title table (handlers.js:11-21); an unknown key
reads as JavaScript `undefined`. -/
def TITLES (k : String) : String :=
  if k = "success" then "Success"
  else if k = "failure" then "Failure"
  else if k = "neutral" then "It is neither good nor bad"
  else if k = "cancelled" then "Cancelled"
  else if k = "timed_out" then "Timed out"
  else if k = "action_required" then "Action required"
  else if k = "queued" then "Queued"
  else if k = "in_progress" then "In progress"
  else if k = "completed" then "Completed"
  else "undefined"

/-- The queue-state → check-run-conclusion table (handlers.js:23-27);
`Option.none` models JavaScript `undefined` for a key outside the table. -/
def CONCLUSIONS (k : String) : Option String :=
  if k = "completed" then some "success"
  else if k = "failed" then some "failure"
  else if k = "exception" then some "failure"
  else Option.none

/-- handlers.js:347: `let taskGroupId = 'nonexistent';` — the placeholder the
variable holds until handlers.js:422 overwrites it from the compiled graph. -/
def initialTaskGroupId : String := "nonexistent"

/-! ### Comment builders -/

/-- The body built by `createExceptionComment` (handlers.js:144-156):
`error.body && error.body.error || error.message`, wrapped in the details
markdown and joined with newlines. -/
def exceptionCommentBody (error : JSError) : String :=
  joinWith "\n"
    ["<details>\n",
     "<summary>Submitting the task to Taskcluster failed. Details</summary>",
     "",
     (error.body).getD error.message,
     "",
     "</details>"]

/-- `Handlers.createExceptionComment` (handlers.js:143-178): an issue comment
when a (truthy) pull number is supplied, a commit comment otherwise. -/
def createExceptionComment (organization repository sha : String)
    (error : JSError) (pullNumber : Option Nat) : Comment :=
  if jsTruthyNat pullNumber then
    { owner := organization, repo := repository,
      target := CommentTarget.issue (pullNumber.getD 0),
      body := exceptionCommentBody error }
  else
    { owner := organization, repo := repository,
      target := CommentTarget.commit sha,
      body := exceptionCommentBody error }

/-- The comment body posted when `prAllowed` denies the pull request
(handlers.js:378-386). -/
def prDeniedBody : String :=
  joinWith "\n"
    ["<details>\n",
     "<summary>No Taskcluster jobs started for this pull request</summary>\n\n",
     "```js\n",
     "The `allowPullRequests` configuration for this repository (in `.taskcluster.yml` on the",
     "default branch) does not allow starting tasks for this pull request.",
     "```\n",
     "</details>"]

/-! ### Group status handler (handlers.js:188-220) -/

/-- The body of the `group.tasks.forEach` loop (handlers.js:207-211): a task
whose state is listed in `['failed', 'exception']` forces `groupState` to
`'failure'`, any other task leaves it unchanged. -/
def aggStep (groupState taskState : String) : String :=
  if taskState ∈ ["failed", "exception"] then "failure" else groupState

/-- One iteration of the pagination `do`/`while` loop over a page of task
states (handlers.js:204-212). -/
def pageStep (groupState : String) (page : List String) : String :=
  page.foldl aggStep groupState

/-- The aggregate outcome computed by the pagination loop over the complete
listing of the task group, one inner list of member-task states per page;
`groupState` starts as `'success'` (handlers.js:198). -/
def groupStatusAggregate (pages : List (List String)) : String :=
  pages.foldl pageStep "success"

/-- `groupStatusHandler` (handlers.js:188-220) applied to the Build record
loaded for the task group: the `build.modify` callback (handlers.js:214-219)
overwrites `state` with the aggregate and refreshes `updated` only when the
current state is not `'failure'`. -/
def groupStatusHandler (build : BuildRecord) (pages : List (List String))
    (now : String) : BuildRecord :=
  let groupState := groupStatusAggregate pages
  if build.state ≠ "failure" then
    { build with state := groupState, updated := now }
  else build

/-! ### Status handler (handlers.js:227-270) -/

/-- `statusHandler` (handlers.js:227-270) applied to the loaded Build and
CheckRuns records.  `authResult` is the outcome of authenticating as the
installation (handlers.js:247-254), `updateResult` that of
`instGithub.checks.update` (handlers.js:257-269); both failures are
re-thrown by the source. -/
def statusHandler (build : BuildRecord) (checkRun : CheckRecord)
    (taskState now : String)
    (authResult updateResult : Except JSError Unit) : Except JSError UpdateCall :=
  match authResult with
  | Except.error e => Except.error e
  | Except.ok _ =>
    match updateResult with
    | Except.error e => Except.error e
    | Except.ok _ =>
      Except.ok
        { owner := build.organization, repo := build.repository,
          check_run_id := checkRun.checkRunId,
          status := "completed",
          conclusion := CONCLUSIONS taskState,
          completed_at := now }

/-! ### Job handler (handlers.js:276-496) -/

/-- The errors the code path at handlers.js:484 actually produces: the Build
already-exists branch reads `this.Builds`, but the `Handlers` instance bound
as `this` has no `Builds` property (the store lives on `this.context.Builds`,
see handlers.js:469 and the constructor at handlers.js:36-57), so calling
`.load` on `undefined` throws a TypeError. -/
def buildsUndefinedTypeError : JSError :=
  { errName := "TypeError", code := JSCode.undef,
    message := "Cannot read properties of undefined (reading 'load')",
    body := Option.none }

/-- The error produced at handlers.js:405: the comment body interpolates the
variable `branch`, which is declared nowhere in `handlers.js`, so evaluating
the template throws a ReferenceError before `issues.createComment` runs. -/
def branchReferenceError : JSError :=
  { errName := "ReferenceError", code := JSCode.undef,
    message := "branch is not defined", body := Option.none }

/-- The error-shaping at handlers.js:321-329: a huge HTML error page from
GitHub has its message truncated to its first 100 characters plus `'...'`
before being re-thrown (the `stack` rewrite is not observable here). -/
def truncateHtmlError (e : JSError) : JSError :=
  if strEndsWith e.message "</body>\n</html>\n" ∧ 10000 < e.message.length then
    { e with message := strTake e.message 100 ++ "..." }
  else e

/-- One inbound job message, holding exactly the payload fields the job
handler reads.  `headSha` is `details['event.head.sha']` with the empty
string standing for JavaScript `undefined` (the `if (!sha)` test at
handlers.js:293); the tag name of `details['event.version']` is absorbed
into the `getShaResult` oracle. -/
structure JobMessage where
  organization : String
  repository : String
  headSha : String
  pullNumber : Option Nat
  eventType : String
  eventId : String
  installationId : Nat

/-- The oracle results of the external calls the job handler awaits, in
source order, together with the two context values it reads.  Per-task
oracles are indexed by the task's position in `graphConfig.tasks`. -/
structure JobEnv where
  authResult : Except JSError Unit
  getShaResult : Except JSError String
  getContentResult : Except JSError String
  yamlParseResult : Except JSError Unit
  intreeResult : Except JSError GraphConfig
  prAllowedResult : Except JSError Bool
  createTasksResult : Except JSError Unit
  checkCreateResult : Nat → Except JSError (String × String)
  checkRecCreateResult : Nat → Except JSError Unit
  buildCreateResult : Except JSError Unit
  statusContext : String
  now : String

/-- The externally visible side effects of one job-handler invocation. -/
structure Effects where
  comments : List Comment := []
  createTasksCalls : List (List String × List GraphTask) := []
  checkRunsCreated : List CheckRunCall := []
  checkRecordsCreated : List CheckRecord := []
  buildsCreated : List BuildRecord := []
deriving DecidableEq

/-- `name` of the check run created for task `i` (handlers.js:442). -/
def checkRunName (i : Nat) (statusContext eventType : String) : String :=
  "Task " ++ toString i ++ ": " ++ statusContext ++ " (" ++ splitHeadDot eventType ++ ")"

/-- `output.title` of a created check run (handlers.js:445-447): the title of
the conclusion when `groupState.conclusion` is truthy, of the status
otherwise. -/
def checkRunTitle (groupState : GroupState) (eventType : String) : String :=
  "TaskGroup: " ++
    (match groupState.conclusion with
      | some c => TITLES c
      | none => TITLES groupState.status) ++
    " (for " ++ eventType ++ ")"

/-- `details_url` of a created check run (handlers.js:450). -/
def detailsUrl (taskGroupId taskId : String) : String :=
  INSPECTOR_URL ++ taskGroupId ++ "/tasks/" ++ taskId ++ "/details"

/-- The body of one `graphConfig.tasks.map` callback (handlers.js:437-464):
create the check run, then the CheckRuns row, swallowing only an
`EntityAlreadyExists` collision (handlers.js:460-464). -/
def perTask (env : JobEnv) (organization repository sha eventType : String)
    (groupState : GroupState) (taskGroupId : String) (i : Nat)
    (task : GraphTask) : (List CheckRunCall × List CheckRecord) × Except JSError Unit :=
  match env.checkCreateResult i with
  | Except.error e => (([], []), Except.error e)
  | Except.ok (suiteId, runId) =>
    let call : CheckRunCall :=
      { owner := organization, repo := repository,
        checkName := checkRunName i env.statusContext eventType,
        head_sha := sha,
        outputTitle := checkRunTitle groupState eventType,
        outputSummary := "Check for " ++ eventType,
        details_url := detailsUrl taskGroupId task.taskId,
        status := groupState.status,
        conclusion := groupState.conclusion,
        completed_at := groupState.completed_at }
    match env.checkRecCreateResult i with
    | Except.ok _ =>
      (([call], [{ taskGroupId := taskGroupId, taskId := task.taskId,
                   checkSuiteId := suiteId, checkRunId := runId }]), Except.ok ())
    | Except.error e =>
      if e.code = JSCode.str "EntityAlreadyExists" then (([call], []), Except.ok ())
      else (([call], []), Except.error e)

/-- Combining the outcomes of the task promises: `Promise.all` rejects when
any member rejects (modelled as the first error in index order) and resolves
otherwise. -/
def combineOutcomes : Except JSError Unit → Except JSError Unit → Except JSError Unit
  | Except.error e, _ => Except.error e
  | Except.ok _, r => r

/-- The `Promise.all(graphConfig.tasks.map(…))` of handlers.js:437-465: every
task's own effect sequence runs (the promises all start), and the combined
outcome fails when any member failed. -/
def tasksLoop (f : Nat → GraphTask → (List CheckRunCall × List CheckRecord) × Except JSError Unit) :
    Nat → List GraphTask → (List CheckRunCall × List CheckRecord) × Except JSError Unit
  | _, [] => (([], []), Except.ok ())
  | i, t :: ts =>
    let r := f i t
    let rest := tasksLoop f (i + 1) ts
    ((r.1.1 ++ rest.1.1, r.1.2 ++ rest.1.2), combineOutcomes r.2 rest.2)

/-- The `finally` block of the job handler (handlers.js:433-495): check-run
bookkeeping for every compiled task, then the `Builds.create` call with its
already-exists handler.  On an `EntityAlreadyExists` collision the source
falls into the `this.Builds.load` slip (see `buildsUndefinedTypeError`). -/
def bookkeeping (env : JobEnv) (msg : JobMessage)
    (organization repository sha : String) (groupState : GroupState)
    (taskGroupId : String) (tasks : List GraphTask)
    (priorComments : List Comment)
    (tasksCall : List (List String × List GraphTask)) :
    Effects × Except JSError Unit :=
  let loopRes := tasksLoop
    (perTask env organization repository sha msg.eventType groupState taskGroupId) 0 tasks
  let eff : Effects :=
    { comments := priorComments, createTasksCalls := tasksCall,
      checkRunsCreated := loopRes.1.1, checkRecordsCreated := loopRes.1.2,
      buildsCreated := [] }
  match loopRes.2 with
  | Except.error e => (eff, Except.error e)
  | Except.ok _ =>
    let state := groupState.conclusion.getD groupState.status
    let record : BuildRecord :=
      { organization := organization, repository := repository, sha := sha,
        taskGroupId := taskGroupId, state := state,
        created := env.now, updated := env.now,
        installationId := msg.installationId,
        eventType := msg.eventType, eventId := msg.eventId }
    match env.buildCreateResult with
    | Except.ok _ => ({ eff with buildsCreated := [record] }, Except.ok ())
    | Except.error e =>
      if e.code = JSCode.str "EntityAlreadyExists" then
        (eff, Except.error buildsUndefinedTypeError)
      else
        (eff, Except.error e)

/-- The `try { createTasks } catch { … } finally { … }` phase
(handlers.js:421-495), entered with the first compiled task `t0` in hand.
`taskGroupId` is read from `t0.task.taskGroupId` (handlers.js:422) before
`createTasks` runs, so both outcomes of the `catch` use it; the failure
branch posts the exception comment with no pull number (handlers.js:432). -/
def submissionPhase (env : JobEnv) (msg : JobMessage)
    (organization repository sha : String) (graphConfig : GraphConfig)
    (t0 : GraphTask) : Effects × Except JSError Unit :=
  let _placeholder := initialTaskGroupId
  let taskGroupId := t0.task.taskGroupId
  let tasksCall := [(graphConfig.scopes, graphConfig.tasks)]
  match env.createTasksResult with
  | Except.ok _ =>
    bookkeeping env msg organization repository sha { status := "queued" }
      taskGroupId graphConfig.tasks [] tasksCall
  | Except.error e =>
    bookkeeping env msg organization repository sha
      { status := "completed", conclusion := some "failure",
        completed_at := some env.now }
      taskGroupId graphConfig.tasks
      [createExceptionComment organization repository sha e Option.none] tasksCall

/-- `jobHandler` (handlers.js:276-496), returning the side-effect log and
the settlement of the returned promise.  Every branch mirrors a branch of
the source: installation auth (282), dot decoding (287-288), sha resolution
(291-301), config fetch with 404-skip and HTML truncation (307-331), the
YAML pre-parse (335-342), `intree` compilation with the zero-task skip
(350-369), the pull-request permission gate (371-419, including the
undeclared `branch` slip at 405), then submission and bookkeeping. -/
def jobHandler (env : JobEnv) (msg : JobMessage) : Effects × Except JSError Unit :=
  match env.authResult with
  | Except.error e => ({}, Except.error e)
  | Except.ok _ =>
    let organization := dotDecode msg.organization
    let repository := dotDecode msg.repository
    let shaRes : Except JSError String :=
      if msg.headSha = "" then env.getShaResult else Except.ok msg.headSha
    match shaRes with
    | Except.error e => ({}, Except.error e)
    | Except.ok sha =>
      match env.getContentResult with
      | Except.error e =>
        if e.code = JSCode.num 404 then ({}, Except.ok ())
        else ({}, Except.error (truncateHtmlError e))
      | Except.ok _repoconf =>
        match env.yamlParseResult with
        | Except.error e =>
          if e.errName = "YAMLException" then
            ({ comments := [createExceptionComment organization repository sha e msg.pullNumber] },
             Except.ok ())
          else ({}, Except.error e)
        | Except.ok _ =>
          match env.intreeResult with
          | Except.error e =>
            ({ comments := [createExceptionComment organization repository sha e msg.pullNumber] },
             Except.ok ())
          | Except.ok graphConfig =>
            match graphConfig.tasks with
            | [] => ({}, Except.ok ())
            | t0 :: _rest =>
              if strStartsWith msg.eventType "pull_request." then
                match env.prAllowedResult with
                | Except.ok true =>
                  submissionPhase env msg organization repository sha graphConfig t0
                | Except.ok false =>
                  ({ comments := [{ owner := organization, repo := repository,
                                    target := CommentTarget.issue (msg.pullNumber.getD 0),
                                    body := prDeniedBody }] },
                   Except.ok ())
                | Except.error e =>
                  if e.errName = "YAMLException" then
                    ({}, Except.error branchReferenceError)
                  else ({}, Except.error e)
              else
                submissionPhase env msg organization repository sha graphConfig t0

/-! ### Substring test (structural, over the character list) -/

/-- `pat` occurs inside the list, by scanning every suffix. -/
def listHasInfix (pat : List Char) : List Char → Bool
  | [] => listIsPrefix pat []
  | c :: rest => listIsPrefix pat (c :: rest) || listHasInfix pat rest

/-- JavaScript `s.includes(p)`: `p` occurs inside `s`. -/
def strContains (s p : String) : Bool := listHasInfix p.data s.data

/-! ### Sample records and environments used by the concrete witnesses -/

def sampleBuildFailure : BuildRecord :=
  { organization := "octo-org", repository := "repo", sha := "deadbeef",
    taskGroupId := "tg-0", state := "failure", created := "2020-01-01",
    updated := "2020-01-02", installationId := 7, eventType := "push",
    eventId := "ev-0" }

def sampleBuildQueued : BuildRecord :=
  { organization := "octo-org", repository := "repo", sha := "deadbeef",
    taskGroupId := "tg-0", state := "queued", created := "2020-01-01",
    updated := "2020-01-01", installationId := 7, eventType := "push",
    eventId := "ev-0" }

def sampleCheckRecord : CheckRecord :=
  { taskGroupId := "tg-0", taskId := "t-9", checkSuiteId := "31", checkRunId := "41" }

/-- A push message whose organization contains an encoded dot. -/
def msgPush : JobMessage :=
  { organization := "octo%org", repository := "repo", headSha := "abc",
    pullNumber := Option.none, eventType := "push", eventId := "ev-1",
    installationId := 5 }

/-- A pull-request message. -/
def msgPR : JobMessage :=
  { organization := "octo%org", repository := "repo", headSha := "abc",
    pullNumber := some 7, eventType := "pull_request.opened", eventId := "ev-2",
    installationId := 5 }

/-- A compiled graph with two tasks in one task group. -/
def graphTwo : GraphConfig :=
  { scopes := ["assume:repo"],
    tasks := [{ taskId := "t-1", task := { taskGroupId := "tg-1" } },
              { taskId := "t-2", task := { taskGroupId := "tg-1" } }] }

/-- The everything-succeeds environment. -/
def envOK : JobEnv :=
  { authResult := Except.ok (),
    getShaResult := Except.error { errName := "unused" },
    getContentResult := Except.ok "yamltext",
    yamlParseResult := Except.ok (),
    intreeResult := Except.ok graphTwo,
    prAllowedResult := Except.ok true,
    createTasksResult := Except.ok (),
    checkCreateResult := fun i => Except.ok (toString (100 + i), toString (200 + i)),
    checkRecCreateResult := fun _ => Except.ok (),
    buildCreateResult := Except.ok (),
    statusContext := "ctx",
    now := "2020-01-01T00:00:00Z" }

/-- A not-found error from `repos.getContent`. -/
def e404 : JSError := { errName := "HttpError", code := JSCode.num 404, message := "Not Found" }

/-- A YAML syntax error. -/
def eYaml : JSError := { errName := "YAMLException", message := "bad indentation of a mapping entry" }

/-- A task-submission failure from the queue. -/
def eSubmit : JSError := { errName := "TaskclusterError", message := "insufficient scopes" }

/-- An already-exists signal from the Builds store. -/
def eExists : JSError := { errName := "StorageError", code := JSCode.str "EntityAlreadyExists" }

/-- `envOK` with the config fetch failing with 404. -/
def env404 : JobEnv := { envOK with getContentResult := Except.error e404 }

/-- `envOK` with a YAML parse failure. -/
def envYaml : JobEnv := { envOK with yamlParseResult := Except.error eYaml }

/-- `envOK` with the permission check denying the pull request. -/
def envDenied : JobEnv := { envOK with prAllowedResult := Except.ok false }

/-- `envOK` with the permission check itself failing on a default-branch
YAML parse error. -/
def envPRYaml : JobEnv := { envOK with prAllowedResult := Except.error eYaml }

/-- `envOK` with `createTasks` failing. -/
def envSubmitFail : JobEnv := { envOK with createTasksResult := Except.error eSubmit }

/-- `envOK` with `Builds.create` reporting a duplicate (at-least-once
redelivery of the same job message). -/
def envDup : JobEnv := { envOK with buildCreateResult := Except.error eExists }

/-! ### Helper lemmas on the aggregation loop -/

lemma foldl_aggStep (l : List String) (gs : String) :
    l.foldl aggStep gs =
      if ∃ s ∈ l, s = "failed" ∨ s = "exception" then "failure" else gs := by
  induction l generalizing gs with
  | nil => simp
  | cons a t ih =>
    by_cases h : a = "failed" ∨ a = "exception"
    · have ha : a ∈ ["failed", "exception"] := by
        rcases h with h | h <;> simp [h]
      have hex : ∃ s ∈ a :: t, s = "failed" ∨ s = "exception" :=
        ⟨a, List.mem_cons_self a t, h⟩
      simp only [List.foldl_cons, aggStep, if_pos ha, ih, if_pos hex]
      split <;> rfl
    · have ha : a ∉ (["failed", "exception"] : List String) := by
        simpa using h
      have hiff : (∃ s ∈ a :: t, s = "failed" ∨ s = "exception") ↔
          (∃ s ∈ t, s = "failed" ∨ s = "exception") := by
        constructor
        · rintro ⟨s, hmem, hp⟩
          rcases List.mem_cons.mp hmem with hs | hs
          · exact absurd (hs ▸ hp) h
          · exact ⟨s, hs, hp⟩
        · rintro ⟨s, hs, hp⟩
          exact ⟨s, List.mem_cons_of_mem a hs, hp⟩
      simp only [List.foldl_cons, aggStep, if_neg ha, ih, hiff]

lemma foldl_pageStep (pages : List (List String)) (gs : String) :
    pages.foldl pageStep gs =
      if ∃ page ∈ pages, ∃ s ∈ page, s = "failed" ∨ s = "exception" then "failure"
      else gs := by
  induction pages generalizing gs with
  | nil => simp
  | cons p ps ih =>
    simp only [List.foldl_cons, pageStep, foldl_aggStep, ih]
    by_cases hp : ∃ s ∈ p, s = "failed" ∨ s = "exception"
    · have hex : ∃ page ∈ p :: ps, ∃ s ∈ page, s = "failed" ∨ s = "exception" :=
        ⟨p, List.mem_cons_self p ps, hp⟩
      simp only [if_pos hp, if_pos hex]
      split <;> rfl
    · have hiff : (∃ page ∈ p :: ps, ∃ s ∈ page, s = "failed" ∨ s = "exception") ↔
          (∃ page ∈ ps, ∃ s ∈ page, s = "failed" ∨ s = "exception") := by
        constructor
        · rintro ⟨pg, hmem, hin⟩
          rcases List.mem_cons.mp hmem with hpg | hpg
          · exact absurd (hpg ▸ hin) hp
          · exact ⟨pg, hpg, hin⟩
        · rintro ⟨pg, hpg, hin⟩
          exact ⟨pg, List.mem_cons_of_mem p hpg, hin⟩
      simp only [if_neg hp, hiff]

/-! ### Helper lemmas on the bookkeeping loop -/

lemma perTask_ok (env : JobEnv) (org repo sha evT : String) (gs : GroupState)
    (tgid : String) (suite run : Nat → String) (i : Nat) (t : GraphTask)
    (hcc : env.checkCreateResult i = Except.ok (suite i, run i))
    (hcr : env.checkRecCreateResult i = Except.ok ()) :
    perTask env org repo sha evT gs tgid i t =
      (([{ owner := org, repo := repo,
           checkName := checkRunName i env.statusContext evT,
           head_sha := sha,
           outputTitle := checkRunTitle gs evT,
           outputSummary := "Check for " ++ evT,
           details_url := detailsUrl tgid t.taskId,
           status := gs.status, conclusion := gs.conclusion,
           completed_at := gs.completed_at }],
        [{ taskGroupId := tgid, taskId := t.taskId,
           checkSuiteId := suite i, checkRunId := run i }]),
       Except.ok ()) := by
  simp [perTask, hcc, hcr]

lemma tasksLoop_all_ok (env : JobEnv) (org repo sha evT : String)
    (gs : GroupState) (tgid : String) (suite run : Nat → String)
    (hcc : ∀ i, env.checkCreateResult i = Except.ok (suite i, run i))
    (hcr : ∀ i, env.checkRecCreateResult i = Except.ok ()) :
    ∀ (tasks : List GraphTask) (start : Nat),
      (tasksLoop (perTask env org repo sha evT gs tgid) start tasks).2 = Except.ok () ∧
      (tasksLoop (perTask env org repo sha evT gs tgid) start tasks).1.1.length
        = tasks.length ∧
      (tasksLoop (perTask env org repo sha evT gs tgid) start tasks).1.2.length
        = tasks.length ∧
      (∀ c ∈ (tasksLoop (perTask env org repo sha evT gs tgid) start tasks).1.1,
        c.status = gs.status ∧ c.conclusion = gs.conclusion ∧
        ∃ t ∈ tasks, c.details_url = detailsUrl tgid t.taskId) ∧
      (∀ r ∈ (tasksLoop (perTask env org repo sha evT gs tgid) start tasks).1.2,
        r.taskGroupId = tgid ∧ ∃ t ∈ tasks, r.taskId = t.taskId) := by
  intro tasks
  induction tasks with
  | nil => intro start; simp [tasksLoop]
  | cons t ts ih =>
    intro start
    obtain ⟨ho, hl1, hl2, hcall, hrec⟩ := ih (start + 1)
    rw [tasksLoop, perTask_ok env org repo sha evT gs tgid suite run start t
        (hcc start) (hcr start)]
    refine ⟨?_, ?_, ?_, ?_, ?_⟩
    · simpa [combineOutcomes] using ho
    · simpa using hl1
    · simpa using hl2
    · intro c hc
      rcases List.mem_cons.mp (by simpa using hc) with hc' | hc'
      · subst hc'
        exact ⟨rfl, rfl, t, List.mem_cons_self t ts, rfl⟩
      · obtain ⟨h1, h2, t', ht', h3⟩ := hcall c hc'
        exact ⟨h1, h2, t', List.mem_cons_of_mem t ht', h3⟩
    · intro r hr
      rcases List.mem_cons.mp (by simpa using hr) with hr' | hr'
      · subst hr'
        exact ⟨rfl, t, List.mem_cons_self t ts, rfl⟩
      · obtain ⟨h1, t', ht', h2⟩ := hrec r hr'
        exact ⟨h1, t', List.mem_cons_of_mem t ht', h2⟩

lemma bookkeeping_all_ok (env : JobEnv) (msg : JobMessage)
    (org repo sha : String) (gs : GroupState) (tgid : String)
    (tasks : List GraphTask) (prior : List Comment)
    (tcall : List (List String × List GraphTask)) (suite run : Nat → String)
    (hcc : ∀ i, env.checkCreateResult i = Except.ok (suite i, run i))
    (hcr : ∀ i, env.checkRecCreateResult i = Except.ok ())
    (hb : env.buildCreateResult = Except.ok ()) :
    (bookkeeping env msg org repo sha gs tgid tasks prior tcall).2 = Except.ok () ∧
    (bookkeeping env msg org repo sha gs tgid tasks prior tcall).1.comments = prior ∧
    (bookkeeping env msg org repo sha gs tgid tasks prior tcall).1.createTasksCalls
      = tcall ∧
    (bookkeeping env msg org repo sha gs tgid tasks prior tcall).1.checkRunsCreated.length
      = tasks.length ∧
    (bookkeeping env msg org repo sha gs tgid tasks prior tcall).1.checkRecordsCreated.length
      = tasks.length ∧
    (∀ c ∈ (bookkeeping env msg org repo sha gs tgid tasks prior tcall).1.checkRunsCreated,
      c.status = gs.status ∧ c.conclusion = gs.conclusion ∧
      ∃ t ∈ tasks, c.details_url = detailsUrl tgid t.taskId) ∧
    (∀ r ∈ (bookkeeping env msg org repo sha gs tgid tasks prior tcall).1.checkRecordsCreated,
      r.taskGroupId = tgid) ∧
    (bookkeeping env msg org repo sha gs tgid tasks prior tcall).1.buildsCreated =
      [{ organization := org, repository := repo, sha := sha,
         taskGroupId := tgid, state := gs.conclusion.getD gs.status,
         created := env.now, updated := env.now,
         installationId := msg.installationId,
         eventType := msg.eventType, eventId := msg.eventId }] := by
  obtain ⟨ho, hl1, hl2, hcall, hrec⟩ :=
    tasksLoop_all_ok env org repo sha msg.eventType gs tgid suite run hcc hcr tasks 0
  unfold bookkeeping
  simp only [ho, hb]
  exact ⟨trivial, trivial, trivial, hl1, hl2, hcall, fun r hr => (hrec r hr).1, trivial⟩

/-- Under the hypotheses that make the job handler reach the submission
phase (auth succeeded, a head sha is present, the config was fetched and
parsed, `intree` compiled a non-empty graph, and either the event is not a
pull request or the permission check allowed it), `jobHandler` reduces to
`submissionPhase`. -/
lemma jobHandler_reaches_submission (env : JobEnv) (msg : JobMessage)
    (repoconf : String) (g : GraphConfig) (t0 : GraphTask) (rest : List GraphTask)
    (hauth : env.authResult = Except.ok ())
    (hsha : msg.headSha ≠ "")
    (hcontent : env.getContentResult = Except.ok repoconf)
    (hyaml : env.yamlParseResult = Except.ok ())
    (hintree : env.intreeResult = Except.ok g)
    (htasks : g.tasks = t0 :: rest)
    (hgate : strStartsWith msg.eventType "pull_request." = false ∨
      env.prAllowedResult = Except.ok true) :
    jobHandler env msg =
      submissionPhase env msg (dotDecode msg.organization)
        (dotDecode msg.repository) msg.headSha g t0 := by
  rcases hgate with hgate | hgate
  · simp [jobHandler, hauth, hsha, hcontent, hyaml, hintree, htasks, hgate]
  · cases hpr : strStartsWith msg.eventType "pull_request." <;>
      simp [jobHandler, hauth, hsha, hcontent, hyaml, hintree, htasks, hgate, hpr]

/-! ### Helper lemmas on string joining -/

lemma data_append (s t : String) : (s ++ t).data = s.data ++ t.data := rfl

lemma joinWith_infix (sep x : String) :
    ∀ lines : List String, x ∈ lines →
      ∃ pre post : List Char, (joinWith sep lines).data = pre ++ x.data ++ post := by
  intro lines
  induction lines with
  | nil => intro h; exact absurd h (List.not_mem_nil x)
  | cons a t ih =>
    intro hx
    cases t with
    | nil =>
      have hxa : x = a := by simpa using hx
      subst hxa
      exact ⟨[], [], by simp [joinWith]⟩
    | cons b ts =>
      rcases List.mem_cons.mp hx with hxa | hxt
      · subst hxa
        exact ⟨[], sep.data ++ (joinWith sep (b :: ts)).data,
          by simp [joinWith, data_append, List.append_assoc]⟩
      · obtain ⟨pre, post, hp⟩ := ih hxt
        exact ⟨a.data ++ sep.data ++ pre, post,
          by simp [joinWith, data_append, hp, List.append_assoc]⟩

/-! ### Claims about the group status handler -/

/-- C1.  Sticky failure: a Build record whose state is `failure` is left
untouched by the group status handler, whatever aggregate the task listing
yields; a record in any other state has its state overwritten with the
aggregate and its `updated` timestamp refreshed (all other fields kept). -/
theorem C1_sticky_failure (build : BuildRecord) (pages : List (List String))
    (now : String) :
    (build.state = "failure" → groupStatusHandler build pages now = build) ∧
    (build.state ≠ "failure" →
      groupStatusHandler build pages now =
        { build with state := groupStatusAggregate pages, updated := now }) := by
  constructor <;> intro h <;> simp [groupStatusHandler, h]

theorem C1_sticky_failure_witness :
    groupStatusHandler sampleBuildFailure [["completed"], ["completed"]] "2020-02-01"
      = sampleBuildFailure :=
  (C1_sticky_failure sampleBuildFailure [["completed"], ["completed"]] "2020-02-01").1 rfl

/-- C4.  The aggregate computed from the complete paged listing is
`failure` exactly when some member task on some page has state `failed` or
`exception`, and is `success` otherwise. -/
theorem C4_group_aggregate (pages : List (List String)) :
    (groupStatusAggregate pages = "failure" ↔
      ∃ page ∈ pages, ∃ s ∈ page, s = "failed" ∨ s = "exception") ∧
    ((¬ ∃ page ∈ pages, ∃ s ∈ page, s = "failed" ∨ s = "exception") →
      groupStatusAggregate pages = "success") := by
  unfold groupStatusAggregate
  rw [foldl_pageStep]
  constructor
  · constructor
    · intro h
      by_contra hn
      rw [if_neg hn] at h
      exact absurd h (by decide)
    · intro h
      rw [if_pos h]
  · intro hn
    rw [if_neg hn]

theorem C4_group_aggregate_witness :
    groupStatusAggregate [["completed", "completed"], ["completed", "exception"]]
      = "failure" :=
  (C4_group_aggregate [["completed", "completed"], ["completed", "exception"]]).1.mpr
    ⟨["completed", "exception"], by simp, "exception", by simp, Or.inr rfl⟩

/-! ### Claim about the status handler -/

/-- C9.  For a terminal task state in {completed, failed, exception} the
status handler issues exactly the check-run update given by the fixed
table — status `completed`, conclusion `success` for `completed` and
`failure` for `failed`/`exception`, completion time `now`, aimed at the
stored check-run identifier — and any failure of the installation
authentication or of the update call is propagated unchanged. -/
theorem C9_status_handler (build : BuildRecord) (checkRun : CheckRecord)
    (s now : String) (e : JSError) (u : Except JSError Unit) :
    (s = "completed" →
      statusHandler build checkRun s now (Except.ok ()) (Except.ok ()) =
        Except.ok
          { owner := build.organization, repo := build.repository,
            check_run_id := checkRun.checkRunId, status := "completed",
            conclusion := some "success", completed_at := now }) ∧
    (s = "failed" ∨ s = "exception" →
      statusHandler build checkRun s now (Except.ok ()) (Except.ok ()) =
        Except.ok
          { owner := build.organization, repo := build.repository,
            check_run_id := checkRun.checkRunId, status := "completed",
            conclusion := some "failure", completed_at := now }) ∧
    (statusHandler build checkRun s now (Except.error e) u = Except.error e) ∧
    (statusHandler build checkRun s now (Except.ok ()) (Except.error e) =
      Except.error e) := by
  refine ⟨?_, ?_, rfl, rfl⟩
  · intro h
    simp [statusHandler, CONCLUSIONS, h]
  · rintro (h | h) <;> simp [statusHandler, CONCLUSIONS, h]

theorem C9_status_handler_witness :
    statusHandler sampleBuildQueued sampleCheckRecord "failed" "2020-03-01"
        (Except.ok ()) (Except.ok ()) =
      Except.ok
        { owner := "octo-org", repo := "repo", check_run_id := "41",
          status := "completed", conclusion := some "failure",
          completed_at := "2020-03-01" } :=
  (C9_status_handler sampleBuildQueued sampleCheckRecord "failed" "2020-03-01"
      { errName := "unused" } (Except.ok ())).2.1 (Or.inl rfl)

/-! ### Claims about the job handler -/

/-- C5.  A job message whose repository has no `.taskcluster.yml` (the fetch
fails with code 404) makes the job handler return without error and without
any side effect — no comment, no task submission, no check run, no Check or
Build record; a fetch failure with any other code is propagated (after the
HTML-truncation shaping) as a handler failure, still with no side effect. -/
theorem C5_missing_config_skips (env : JobEnv) (msg : JobMessage) (e : JSError)
    (hauth : env.authResult = Except.ok ())
    (hsha : msg.headSha ≠ "")
    (hcontent : env.getContentResult = Except.error e) :
    (e.code = JSCode.num 404 → jobHandler env msg = ({}, Except.ok ())) ∧
    (e.code ≠ JSCode.num 404 →
      jobHandler env msg = ({}, Except.error (truncateHtmlError e))) := by
  constructor <;> intro h <;> simp [jobHandler, hauth, hsha, hcontent, h]

theorem C5_missing_config_skips_witness :
    jobHandler env404 msgPush = ({}, Except.ok ()) :=
  (C5_missing_config_skips env404 msgPush e404 rfl (by decide) rfl).1 rfl

/-- C6.  A fetched config text that fails the YAML pre-parse with a
`YAMLException` makes the job handler post exactly one exception comment —
whose body contains the parse error text — and settle without raising; no
task is submitted and no check run, Check record or Build record is
created. -/
theorem C6_yaml_error_comments_once (env : JobEnv) (msg : JobMessage)
    (repoconf : String) (e : JSError)
    (hauth : env.authResult = Except.ok ())
    (hsha : msg.headSha ≠ "")
    (hcontent : env.getContentResult = Except.ok repoconf)
    (hyaml : env.yamlParseResult = Except.error e)
    (hname : e.errName = "YAMLException") :
    jobHandler env msg =
      ({ comments := [createExceptionComment (dotDecode msg.organization)
            (dotDecode msg.repository) msg.headSha e msg.pullNumber] },
        Except.ok ()) ∧
    (∃ pre post : List Char,
      (exceptionCommentBody e).data = pre ++ ((e.body).getD e.message).data ++ post) := by
  constructor
  · simp [jobHandler, hauth, hsha, hcontent, hyaml, hname]
  · exact joinWith_infix "\n" ((e.body).getD e.message) _ (by simp)

theorem C6_yaml_error_comments_once_witness :
    jobHandler envYaml msgPush =
      ({ comments := [createExceptionComment "octo.org" "repo" "abc" eYaml Option.none] },
        Except.ok ()) :=
  (C6_yaml_error_comments_once envYaml msgPush "yamltext" eYaml rfl (by decide)
      rfl rfl rfl).1

/-- C7.  A pull-request job message whose actor fails the permission check
makes the job handler post a single issue comment whose body names the
`allowPullRequests` policy, and settle without raising; no task is
submitted and no check run, Check record or Build record is created. -/
theorem C7_pr_denied_comments (env : JobEnv) (msg : JobMessage)
    (repoconf : String) (g : GraphConfig) (t0 : GraphTask) (rest : List GraphTask)
    (hauth : env.authResult = Except.ok ())
    (hsha : msg.headSha ≠ "")
    (hcontent : env.getContentResult = Except.ok repoconf)
    (hyaml : env.yamlParseResult = Except.ok ())
    (hintree : env.intreeResult = Except.ok g)
    (htasks : g.tasks = t0 :: rest)
    (hev : strStartsWith msg.eventType "pull_request." = true)
    (hdeny : env.prAllowedResult = Except.ok false) :
    jobHandler env msg =
      ({ comments := [{ owner := dotDecode msg.organization,
                        repo := dotDecode msg.repository,
                        target := CommentTarget.issue (msg.pullNumber.getD 0),
                        body := prDeniedBody }] },
        Except.ok ()) ∧
    strContains prDeniedBody "allowPullRequests" = true := by
  constructor
  · simp [jobHandler, hauth, hsha, hcontent, hyaml, hintree, htasks, hev, hdeny]
  · rfl

theorem C7_pr_denied_comments_witness :
    jobHandler envDenied msgPR =
      ({ comments := [{ owner := "octo.org", repo := "repo",
                        target := CommentTarget.issue 7,
                        body := prDeniedBody }] },
        Except.ok ()) :=
  (C7_pr_denied_comments envDenied msgPR "yamltext" graphTwo
      { taskId := "t-1", task := { taskGroupId := "tg-1" } }
      [{ taskId := "t-2", task := { taskGroupId := "tg-1" } }]
      rfl (by decide) rfl rfl rfl rfl rfl rfl).1

/-- C3.  When the compiled graph is non-empty and `createTasks` fails, the
job handler still settles successfully: the guaranteed bookkeeping block
creates one check run per compiled task, each with status `completed` and
conclusion `failure` instead of `queued`, persists one Check record per
task, persists the Build record with state `failure`, and posts the
exception comment for the submission failure. -/
theorem C3_submission_failure_still_bookkeeps (env : JobEnv) (msg : JobMessage)
    (repoconf : String) (g : GraphConfig) (t0 : GraphTask) (rest : List GraphTask)
    (e : JSError) (suite run : Nat → String)
    (hauth : env.authResult = Except.ok ())
    (hsha : msg.headSha ≠ "")
    (hcontent : env.getContentResult = Except.ok repoconf)
    (hyaml : env.yamlParseResult = Except.ok ())
    (hintree : env.intreeResult = Except.ok g)
    (htasks : g.tasks = t0 :: rest)
    (hgate : strStartsWith msg.eventType "pull_request." = false ∨
      env.prAllowedResult = Except.ok true)
    (hct : env.createTasksResult = Except.error e)
    (hcc : ∀ i, env.checkCreateResult i = Except.ok (suite i, run i))
    (hcr : ∀ i, env.checkRecCreateResult i = Except.ok ())
    (hb : env.buildCreateResult = Except.ok ()) :
    (jobHandler env msg).2 = Except.ok () ∧
    (jobHandler env msg).1.comments =
      [createExceptionComment (dotDecode msg.organization)
        (dotDecode msg.repository) msg.headSha e Option.none] ∧
    (jobHandler env msg).1.checkRunsCreated.length = g.tasks.length ∧
    (∀ c ∈ (jobHandler env msg).1.checkRunsCreated,
      c.status = "completed" ∧ c.conclusion = some "failure") ∧
    (jobHandler env msg).1.checkRecordsCreated.length = g.tasks.length ∧
    (jobHandler env msg).1.buildsCreated =
      [{ organization := dotDecode msg.organization,
         repository := dotDecode msg.repository, sha := msg.headSha,
         taskGroupId := t0.task.taskGroupId, state := "failure",
         created := env.now, updated := env.now,
         installationId := msg.installationId,
         eventType := msg.eventType, eventId := msg.eventId }] := by
  have hred := jobHandler_reaches_submission env msg repoconf g t0 rest
    hauth hsha hcontent hyaml hintree htasks hgate
  obtain ⟨h1, h2, h3, h4, h5, h6, h7, h8⟩ := bookkeeping_all_ok env msg
    (dotDecode msg.organization) (dotDecode msg.repository) msg.headSha
    { status := "completed", conclusion := some "failure",
      completed_at := some env.now }
    t0.task.taskGroupId g.tasks
    [createExceptionComment (dotDecode msg.organization)
      (dotDecode msg.repository) msg.headSha e Option.none]
    [(g.scopes, g.tasks)] suite run hcc hcr hb
  rw [hred]
  simp only [submissionPhase, hct]
  exact ⟨h1, h2, h4, fun c hc => ⟨(h6 c hc).1, (h6 c hc).2.1⟩, h5, h8⟩

theorem C3_submission_failure_still_bookkeeps_witness :
    (jobHandler envSubmitFail msgPush).2 = Except.ok () ∧
    (jobHandler envSubmitFail msgPush).1.checkRunsCreated.length = 2 ∧
    (jobHandler envSubmitFail msgPush).1.buildsCreated =
      [{ organization := "octo.org", repository := "repo", sha := "abc",
         taskGroupId := "tg-1", state := "failure",
         created := "2020-01-01T00:00:00Z", updated := "2020-01-01T00:00:00Z",
         installationId := 5, eventType := "push", eventId := "ev-1" }] := by
  obtain h := C3_submission_failure_still_bookkeeps envSubmitFail msgPush
    "yamltext" graphTwo { taskId := "t-1", task := { taskGroupId := "tg-1" } }
    [{ taskId := "t-2", task := { taskGroupId := "tg-1" } }] eSubmit
    (fun i => toString (100 + i)) (fun i => toString (200 + i))
    rfl (by decide) rfl rfl rfl rfl (Or.inl rfl) rfl
    (fun _ => rfl) (fun _ => rfl) rfl
  exact ⟨h.1, h.2.2.1, h.2.2.2.2.2⟩

/-- C10.  When the job handler reaches the submission phase with a
non-empty compiled graph, the task-group identifier behind every side
effect — the details link of every created check run, every persisted Check
record and the Build record's key — is `graphConfig.tasks[0].task.taskGroupId`,
whatever the outcome of `createTasks`; before that assignment the variable
holds the placeholder `'nonexistent'`. -/
theorem C10_taskGroupId_from_first_task (env : JobEnv) (msg : JobMessage)
    (repoconf : String) (g : GraphConfig) (t0 : GraphTask) (rest : List GraphTask)
    (suite run : Nat → String)
    (hauth : env.authResult = Except.ok ())
    (hsha : msg.headSha ≠ "")
    (hcontent : env.getContentResult = Except.ok repoconf)
    (hyaml : env.yamlParseResult = Except.ok ())
    (hintree : env.intreeResult = Except.ok g)
    (htasks : g.tasks = t0 :: rest)
    (hgate : strStartsWith msg.eventType "pull_request." = false ∨
      env.prAllowedResult = Except.ok true)
    (hcc : ∀ i, env.checkCreateResult i = Except.ok (suite i, run i))
    (hcr : ∀ i, env.checkRecCreateResult i = Except.ok ())
    (hb : env.buildCreateResult = Except.ok ()) :
    initialTaskGroupId = "nonexistent" ∧
    (∀ c ∈ (jobHandler env msg).1.checkRunsCreated,
      ∃ t ∈ g.tasks, c.details_url = detailsUrl t0.task.taskGroupId t.taskId) ∧
    (∀ r ∈ (jobHandler env msg).1.checkRecordsCreated,
      r.taskGroupId = t0.task.taskGroupId) ∧
    (∀ b ∈ (jobHandler env msg).1.buildsCreated,
      b.taskGroupId = t0.task.taskGroupId) := by
  have hred := jobHandler_reaches_submission env msg repoconf g t0 rest
    hauth hsha hcontent hyaml hintree htasks hgate
  rw [hred]
  cases hct : env.createTasksResult with
  | ok u =>
    obtain ⟨h1, h2, h3, h4, h5, h6, h7, h8⟩ := bookkeeping_all_ok env msg
      (dotDecode msg.organization) (dotDecode msg.repository) msg.headSha
      { status := "queued" } t0.task.taskGroupId g.tasks [] [(g.scopes, g.tasks)]
      suite run hcc hcr hb
    simp only [submissionPhase, hct]
    refine ⟨rfl, fun c hc => (h6 c hc).2.2, h7, ?_⟩
    intro b hbmem
    rw [h8] at hbmem
    rcases List.mem_singleton.mp hbmem with rfl
    rfl
  | error e =>
    obtain ⟨h1, h2, h3, h4, h5, h6, h7, h8⟩ := bookkeeping_all_ok env msg
      (dotDecode msg.organization) (dotDecode msg.repository) msg.headSha
      { status := "completed", conclusion := some "failure",
        completed_at := some env.now }
      t0.task.taskGroupId g.tasks
      [createExceptionComment (dotDecode msg.organization)
        (dotDecode msg.repository) msg.headSha e Option.none]
      [(g.scopes, g.tasks)] suite run hcc hcr hb
    simp only [submissionPhase, hct]
    refine ⟨rfl, fun c hc => (h6 c hc).2.2, h7, ?_⟩
    intro b hbmem
    rw [h8] at hbmem
    rcases List.mem_singleton.mp hbmem with rfl
    rfl

theorem C10_taskGroupId_from_first_task_witness :
    initialTaskGroupId = "nonexistent" ∧
    (∀ b ∈ (jobHandler envOK msgPush).1.buildsCreated, b.taskGroupId = "tg-1") := by
  obtain h := C10_taskGroupId_from_first_task envOK msgPush "yamltext" graphTwo
    { taskId := "t-1", task := { taskGroupId := "tg-1" } }
    [{ taskId := "t-2", task := { taskGroupId := "tg-1" } }]
    (fun i => toString (100 + i)) (fun i => toString (200 + i))
    rfl (by decide) rfl rfl rfl rfl (Or.inl rfl)
    (fun _ => rfl) (fun _ => rfl) rfl
  exact ⟨h.1, h.2.2.2⟩

/-- C2.  The claim says a duplicate delivery (`Builds.create` signalling
`EntityAlreadyExists`) never raises: the handler is supposed to load the
existing record and assert that its fields match.  On the code this is
false: handlers.js:484 reads `this.Builds`, which is undefined on the
`Handlers` instance (the store lives on `this.context.Builds`), so the
duplicate path throws a TypeError before loading or asserting anything —
here evaluated on a concrete duplicate delivery, which also shows no second
Build record is persisted. -/
theorem C2_duplicate_delivery_raises :
    (jobHandler envDup msgPush).2 = Except.error buildsUndefinedTypeError ∧
    buildsUndefinedTypeError.errName = "TypeError" ∧
    (jobHandler envDup msgPush).1.buildsCreated = [] :=
  ⟨rfl, rfl, rfl⟩

/-- C8.  The claim says a `YAMLException` from the permission check makes
the handler post a documentation-pointing comment and stop without raising.
On the code this is false: the comment body at handlers.js:405 interpolates
the undeclared variable `branch`, so evaluating it throws a ReferenceError —
the handler posts no comment at all and rejects.  Evaluated on a concrete
pull-request message whose permission check fails with a `YAMLException`:
the effect log is empty (no comment) and the outcome is the ReferenceError. -/
theorem C8_permission_yaml_error_raises :
    jobHandler envPRYaml msgPR = ({}, Except.error branchReferenceError) ∧
    branchReferenceError.errName = "ReferenceError" :=
  ⟨rfl, rfl⟩

end TCGithub
